import Mathlib

/-!
Shallow embedding of the vector-search core of the ehcode repository.

The repository contains three variants of the same main-process service:

* `Env`    — multi-collection service configured from environment variables
             (first half of src/vs/platform/void/electron-main/vectorSearchMainService.ts);
* `Cfg`    — multi-collection service configured from the per-call settings
             bundle, with a lazily constructed Qdrant client (src/unnamed/part_000);
* `Single` — single-collection service (second half of vectorSearchMainService.ts).

External services (the Qdrant vector database and the OpenAI embedding
provider) are modelled by an oracle (`World`) giving the response of each
network endpoint; every effectful function additionally returns the ordered
list of network calls it issued (`NetEv`).  Floating-point scores, payloads
and embedding entries are never computed on by the code — they are carried
opaquely — so they are modelled by type parameters σ (score), π (payload)
and ε (embedding entry).  Thrown JS errors are modelled by `Except String`
carrying the exact message.
-/

namespace EHCode

/-- One raw hit as returned by the Qdrant search endpoint: `{id, score, payload}`.
This is also the `SearchResult` shape of the single-collection variant,
which has no `collection` field. -/
structure RawHit (σ π : Type) where
  id : String
  score : σ
  payload : π
  deriving DecidableEq, Repr

/-- The `SearchResult` of the multi-collection variants: the optional
`collection` field records which collection the result came from. -/
structure SearchResult (σ π : Type) where
  id : String
  score : σ
  payload : π
  collection : Option String
  deriving DecidableEq, Repr

/-- The `SearchParams` of the multi-collection variants. -/
structure SearchParams (σ : Type) where
  query : String
  collectionNames : List String
  limit : Nat
  score_threshold : σ
  with_payload : Bool
  deriving DecidableEq, Repr

/-- The settings block for the OpenAI embedding provider
(`settings.openAI`): the `_didFillInProviderSettings` flag, endpoint and
API key. -/
structure OpenAISettings where
  didFillInProviderSettings : Bool
  endpoint : String
  apiKey : String
  deriving DecidableEq, Repr

/-- The `settings.globalSettings` block of the `Cfg` variant: user-supplied
Qdrant URL and API key.  `none` models a JS `undefined` field. -/
structure GlobalSettings where
  qdrantUrl : Option String
  qdrantApiKey : Option String
  deriving DecidableEq, Repr

/-- The opaque settings bundle passed with each call (`args.settings`). -/
structure Settings where
  openAI : Option OpenAISettings
  globalSettings : GlobalSettings
  deriving DecidableEq, Repr

/-- JS truthiness of an optional string: `undefined` and the empty string
are falsy (`!qdrantUrl` in the source). -/
def truthy : Option String → Bool
  | none => false
  | some s => !(s = "")

/-- Truthiness of `settings.openAI?._didFillInProviderSettings`. -/
def openAIFilled (s : Settings) : Bool :=
  match s.openAI with
  | some o => o.didFillInProviderSettings
  | none => false

/-- JS `Set.add` on the collections cache, modelled on insertion-ordered
lists: append the element if it is not already present. -/
def setAdd (cache : List String) (x : String) : List String :=
  if x ∈ cache then cache else cache ++ [x]

/-- A network call issued by the service: a Qdrant `getCollections` listing,
an OpenAI embedding request, or a per-collection Qdrant search carrying the
embedding vector. -/
inductive NetEv (ε : Type) where
  | listCollections : NetEv ε
  | embed (text : String) : NetEv ε
  | search (collection : String) (vector : List ε) : NetEv ε
  deriving DecidableEq, Repr

/-- Oracle for the external services: the response of the Qdrant
`getCollections` endpoint (the listed collection names), of the OpenAI
embedding endpoint for a given input text, and of the Qdrant search
endpoint for a given collection and query vector.  `Except.error`
models a rejected network call. -/
structure World (σ π ε : Type) where
  listResult : Except String (List String)
  embedResult : String → Except String (List ε)
  searchResult : String → List ε → Except String (List (RawHit σ π))

/-- The `for (const name of collectionNames)` loop body of
`ensureCollectionsExist`: names present in the authoritative listing are
pushed onto `existingCollections` (in input order) and added to the cache;
absent names are only warned about. -/
def collectExisting (available : List String) :
    List String → List String → List String × List String
  | [], cache => ([], cache)
  | name :: rest, cache =>
      if name ∈ available then
        let r := collectExisting available rest (setAdd cache name)
        (name :: r.1, r.2)
      else
        collectExisting available rest cache

/-- Spread annotation `{ ...result, collection: collectionName }` performed
by the multi-collection fan-out on every raw hit. -/
def annotate (h : RawHit σ π) (c : String) : SearchResult σ π :=
  ⟨h.id, h.score, h.payload, some c⟩

/-- Value of `Promise.all(searchPromises)` followed by `.flat()` in the
multi-collection fan-out: if every per-collection search resolves, the
annotated per-collection result lists are concatenated in the order of the
confirmed-collections list; if any one rejects, the whole request rejects
(serialised here as the first rejection in list order). -/
def fanOutResults (w : World σ π ε) (emb : List ε) :
    List String → Except String (List (SearchResult σ π))
  | [] => .ok []
  | c :: rest =>
      match w.searchResult c emb with
      | .error e => .error e
      | .ok hits =>
          match fanOutResults w emb rest with
          | .error e => .error e
          | .ok tail => .ok (hits.map (fun h => annotate h c) ++ tail)

/-- Network calls issued by the fan-out: `existingCollections.map` creates
all per-collection search promises up front, so one search call per
confirmed collection is issued regardless of individual failures. -/
def fanOutTrace (emb : List ε) (cs : List String) : List (NetEv ε) :=
  cs.map (fun c => NetEv.search c emb)

/-- Projection of a resolved search response used in theorem statements. -/
def hitsOf : Except String (List (RawHit σ π)) → List (RawHit σ π)
  | .ok hs => hs
  | .error _ => []

/-- Result of one registry validation call: the confirmed subset, the new
cache, and the network calls issued. -/
structure ValidateOut (ε : Type) where
  existing : List String
  cache : List String
  trace : List (NetEv ε)
  deriving DecidableEq, Repr

/-- Result of one `call` invocation of a multi-collection variant. -/
structure CallOut (σ π ε : Type) where
  result : Except String (List (SearchResult σ π))
  cache : List String
  trace : List (NetEv ε)

namespace Env

/-- Expected embedding dimensionality (`VECTOR_SIZE`). -/
def VECTOR_SIZE : Nat := 1536

/-- Configured embedding model (`EMBEDDING_MODEL`). -/
def EMBEDDING_MODEL : String := "text-embedding-3-small"

/-- Constructor-time `initializeCollections`: a best-effort listing call
whose names populate the cache; a failure is logged and swallowed.
Returns the new cache and the network calls issued. -/
def initializeCollections (w : World σ π ε) (cache : List String) :
    List String × List (NetEv ε) :=
  match w.listResult with
  | .ok names => (names.foldl setAdd cache, [NetEv.listCollections])
  | .error _ => (cache, [NetEv.listCollections])

/-- Embeds `ensureCollectionsExist` of the env-configured variant: always
issues one fresh `getCollections` call; on success keeps exactly the
requested names present in the listing (input order preserved) and adds
them to the cache; if the listing rejects, the catch block returns the
empty `existingCollections` array. -/
def ensureCollectionsExist (w : World σ π ε) (cache : List String)
    (collectionNames : List String) : ValidateOut ε :=
  match w.listResult with
  | .error _ => ⟨[], cache, [NetEv.listCollections]⟩
  | .ok available =>
      let r := collectExisting available collectionNames cache
      ⟨r.1, r.2, [NetEv.listCollections]⟩

/-- Embeds `getEmbedding` of the env-configured variant: first the
`settings.openAI?._didFillInProviderSettings` guard (throws before any
network call), then the embedding request, then the `VECTOR_SIZE` length
check on the returned vector. -/
def getEmbedding (w : World σ π ε) (text : String) (settings : Settings) :
    Except String (List ε) × List (NetEv ε) :=
  if !openAIFilled settings then
    (.error "OpenAI settings not configured. Please configure OpenAI settings in Void Settings.", [])
  else
    match w.embedResult text with
    | .error e => (.error e, [NetEv.embed text])
    | .ok embedding =>
        if embedding.length ≠ VECTOR_SIZE then
          (.error ("Unexpected embedding size: " ++ toString embedding.length ++
            " (expected " ++ toString VECTOR_SIZE ++ ")"), [NetEv.embed text])
        else
          (.ok embedding, [NetEv.embed text])

/-- Embeds `call` of the env-configured multi-collection variant:
collection validation, the empty-subset guard, the embedding step, then
the parallel fan-out with collection annotation and flattening. -/
def call (w : World σ π ε) (cache : List String) (command : String)
    (params : SearchParams σ) (settings : Settings) : CallOut σ π ε :=
  if command = "search" then
    let v := ensureCollectionsExist w cache params.collectionNames
    if v.existing.length = 0 then
      { result := .error "None of the requested collections exist in Qdrant.",
        cache := v.cache, trace := v.trace }
    else
      match getEmbedding w params.query settings with
      | (.error e, t2) =>
          { result := .error e, cache := v.cache, trace := v.trace ++ t2 }
      | (.ok embedding, t2) =>
          { result := fanOutResults w embedding v.existing,
            cache := v.cache,
            trace := v.trace ++ t2 ++ fanOutTrace embedding v.existing }
  else
    { result := .error ("Command not found: " ++ command),
      cache := cache, trace := [] }

end Env

namespace Cfg

/-- Expected embedding dimensionality (`VECTOR_SIZE`). -/
def VECTOR_SIZE : Nat := 1536

/-- Mutable fields of the settings-configured variant: the collections
cache and whether the lazily constructed Qdrant client exists yet. -/
structure State where
  cache : List String
  hasClient : Bool
  deriving DecidableEq, Repr

/-- Constructor-time `initializeCollections` of the settings-configured
variant: guarded by `if (this.client)`, so with no client yet it does
nothing and issues no network call. -/
def initializeCollections (w : World σ π ε) (st : State) :
    State × List (NetEv ε) :=
  if st.hasClient then
    match w.listResult with
    | .ok names => ({ st with cache := names.foldl setAdd st.cache }, [NetEv.listCollections])
    | .error _ => (st, [NetEv.listCollections])
  else
    (st, [])

/-- Embeds `ensureCollectionsExist` of the settings-configured variant:
identical to the env variant except that a missing client throws inside
the try block, which the catch turns into the empty confirmed list with
no network call issued. -/
def ensureCollectionsExist (w : World σ π ε) (st : State)
    (collectionNames : List String) :
    List String × State × List (NetEv ε) :=
  if !st.hasClient then
    ([], st, [])
  else
    match w.listResult with
    | .error _ => ([], st, [NetEv.listCollections])
    | .ok available =>
        let r := collectExisting available collectionNames st.cache
        (r.1, { st with cache := r.2 }, [NetEv.listCollections])

/-- Embeds `getEmbedding` of the settings-configured variant: here the
provider-configuration guard lives in `call`, so this is only the
embedding request plus the `VECTOR_SIZE` length check. -/
def getEmbedding (w : World σ π ε) (text : String) :
    Except String (List ε) × List (NetEv ε) :=
  match w.embedResult text with
  | .error e => (.error e, [NetEv.embed text])
  | .ok embedding =>
      if embedding.length ≠ VECTOR_SIZE then
        (.error ("Unexpected embedding size: " ++ toString embedding.length ++
          " (expected " ++ toString VECTOR_SIZE ++ ")"), [NetEv.embed text])
      else
        (.ok embedding, [NetEv.embed text])

/-- Result of one `call` invocation of the settings-configured variant. -/
structure CallOut (σ π ε : Type) where
  result : Except String (List (SearchResult σ π))
  state : State
  trace : List (NetEv ε)

/-- Embeds `call` of the settings-configured variant (src/unnamed/part_000):
the OpenAI-settings guard and the Qdrant URL/API-key guard run before the
client is (lazily) constructed and before any network call; then collection
validation, the empty-subset guard, embedding, and the same fan-out as the
env variant.  The dead `if (!this.client)` re-check inside each search
promise is unreachable because the client is constructed above. -/
def call (w : World σ π ε) (st : State) (command : String)
    (params : SearchParams σ) (settings : Settings) : CallOut σ π ε :=
  if command = "search" then
    if !openAIFilled settings then
      { result := .error "OpenAI settings not configured. Please configure OpenAI settings in EH Code Settings.",
        state := st, trace := [] }
    else if !truthy settings.globalSettings.qdrantUrl ||
            !truthy settings.globalSettings.qdrantApiKey then
      { result := .error "Qdrant configuration is missing. Please configure Qdrant URL and API Key in Settings > General.",
        state := st, trace := [] }
    else
      let st1 : State := { st with hasClient := true }
      let r := ensureCollectionsExist w st1 params.collectionNames
      if r.1.length = 0 then
        { result := .error "None of the requested collections exist in Qdrant.",
          state := r.2.1, trace := r.2.2 }
      else
        match getEmbedding w params.query with
        | (.error e, t2) =>
            { result := .error e, state := r.2.1, trace := r.2.2 ++ t2 }
        | (.ok embedding, t2) =>
            { result := fanOutResults w embedding r.1,
              state := r.2.1,
              trace := r.2.2 ++ t2 ++ fanOutTrace embedding r.1 }
  else
    { result := .error ("Command not found: " ++ command),
      state := st, trace := [] }

end Cfg

namespace Single

/-- Expected embedding dimensionality (`VECTOR_SIZE`). -/
def VECTOR_SIZE : Nat := 1536

/-- The `SearchParams` of the single-collection variant: one collection
name. -/
structure SearchParams (σ : Type) where
  query : String
  collectionName : String
  limit : Nat
  score_threshold : σ
  with_payload : Bool
  deriving DecidableEq, Repr

/-- Embeds `ensureCollectionExists` of the single-collection variant: a
cached name is accepted immediately with no network call; otherwise one
fresh listing decides, a confirmed name is added to the cache, and a
rejected listing yields `false`. -/
def ensureCollectionExists (w : World σ π ε) (cache : List String)
    (collectionName : String) : Bool × List String × List (NetEv ε) :=
  if collectionName ∈ cache then
    (true, cache, [])
  else
    match w.listResult with
    | .error _ => (false, cache, [NetEv.listCollections])
    | .ok available =>
        if collectionName ∈ available then
          (true, setAdd cache collectionName, [NetEv.listCollections])
        else
          (false, cache, [NetEv.listCollections])

/-- Embeds `getEmbedding` of the single-collection variant (textually the
same function as in the env variant). -/
def getEmbedding (w : World σ π ε) (text : String) (settings : Settings) :
    Except String (List ε) × List (NetEv ε) :=
  if !openAIFilled settings then
    (.error "OpenAI settings not configured. Please configure OpenAI settings in Void Settings.", [])
  else
    match w.embedResult text with
    | .error e => (.error e, [NetEv.embed text])
    | .ok embedding =>
        if embedding.length ≠ VECTOR_SIZE then
          (.error ("Unexpected embedding size: " ++ toString embedding.length ++
            " (expected " ++ toString VECTOR_SIZE ++ ")"), [NetEv.embed text])
        else
          (.ok embedding, [NetEv.embed text])

/-- Result of one `call` invocation of the single-collection variant; note
the success payload is the raw, unannotated hit list. -/
structure CallOut (σ π ε : Type) where
  result : Except String (List (RawHit σ π))
  cache : List String
  trace : List (NetEv ε)

/-- Embeds `call` of the single-collection variant: existence check on the
one collection, embedding, a single search call, and the raw results
returned unchanged. -/
def call (w : World σ π ε) (cache : List String) (command : String)
    (params : SearchParams σ) (settings : Settings) : CallOut σ π ε :=
  if command = "search" then
    let r := ensureCollectionExists w cache params.collectionName
    if !r.1 then
      { result := .error ("Collection \"" ++ params.collectionName ++ "\" does not exist in Qdrant."),
        cache := r.2.1, trace := r.2.2 }
    else
      match getEmbedding w params.query settings with
      | (.error e, t2) =>
          { result := .error e, cache := r.2.1, trace := r.2.2 ++ t2 }
      | (.ok embedding, t2) =>
          match w.searchResult params.collectionName embedding with
          | .error e =>
              { result := .error e, cache := r.2.1,
                trace := r.2.2 ++ t2 ++ [NetEv.search params.collectionName embedding] }
          | .ok results =>
              { result := .ok results, cache := r.2.1,
                trace := r.2.2 ++ t2 ++ [NetEv.search params.collectionName embedding] }
  else
    { result := .error ("Command not found: " ++ command),
      cache := cache, trace := [] }

end Single

end EHCode

namespace EHCode

theorem setAdd_subset (cache : List String) (x : String) : cache ⊆ setAdd cache x := by
  unfold setAdd
  split
  · exact fun a ha => ha
  · exact fun a ha => List.mem_append_left _ ha

theorem self_mem_setAdd (cache : List String) (x : String) : x ∈ setAdd cache x := by
  unfold setAdd
  split
  · assumption
  · exact List.mem_append_right _ (List.mem_singleton.mpr rfl)

theorem foldl_setAdd_subset (names : List String) (cache : List String) :
    cache ⊆ names.foldl setAdd cache := by
  induction names generalizing cache with
  | nil => exact fun a ha => ha
  | cons n rest ih =>
      exact fun a ha => ih (setAdd cache n) (setAdd_subset cache n ha)

theorem collectExisting_fst (available ns : List String) (cache : List String) :
    (collectExisting available ns cache).1 = ns.filter (fun n => decide (n ∈ available)) := by
  induction ns generalizing cache with
  | nil => rfl
  | cons n rest ih =>
      unfold collectExisting
      by_cases hn : n ∈ available
      · simp [hn, ih]
      · simp [hn, ih]

theorem collectExisting_cache_subset (available ns : List String) (cache : List String) :
    cache ⊆ (collectExisting available ns cache).2 := by
  induction ns generalizing cache with
  | nil => exact fun a ha => ha
  | cons n rest ih =>
      unfold collectExisting
      by_cases hn : n ∈ available
      · simp only [hn, if_true]
        exact fun a ha => ih (setAdd cache n) (setAdd_subset cache n ha)
      · simp only [hn, if_false]
        exact ih cache

theorem collectExisting_mem_cache (available ns : List String) (cache : List String)
    (n : String) (hmem : n ∈ (collectExisting available ns cache).1) :
    n ∈ (collectExisting available ns cache).2 := by
  induction ns generalizing cache with
  | nil => simp [collectExisting] at hmem
  | cons m rest ih =>
      unfold collectExisting at hmem ⊢
      by_cases hm : m ∈ available
      · simp only [hm, if_true] at hmem ⊢
        rcases List.mem_cons.mp hmem with heq | htail
        · subst heq
          exact collectExisting_cache_subset available rest (setAdd cache n)
            (self_mem_setAdd cache n)
        · exact ih (setAdd cache m) htail
      · simp only [hm, if_false] at hmem ⊢
        exact ih cache hmem

end EHCode

namespace EHCode

theorem fanOutResults_all_ok (w : World σ π ε) (emb : List ε) (cs : List String)
    (h : ∀ c ∈ cs, (w.searchResult c emb).isOk = true) :
    fanOutResults w emb cs =
      .ok (cs.flatMap (fun c => (hitsOf (w.searchResult c emb)).map (fun h2 => annotate h2 c))) := by
  induction cs with
  | nil => rfl
  | cons c rest ih =>
      have hc : (w.searchResult c emb).isOk = true := h c (List.mem_cons_self c rest)
      rcases hok : w.searchResult c emb with e | hs
      · rw [hok] at hc; simp [Except.isOk, Except.toBool] at hc
      · have htail := ih (fun c2 hc2 => h c2 (List.mem_cons_of_mem c hc2))
        unfold fanOutResults
        rw [hok, htail]
        simp [hitsOf, hok]

theorem fanOutResults_ok_mem (w : World σ π ε) (emb : List ε) (cs : List String)
    (rs : List (SearchResult σ π)) (h : fanOutResults w emb cs = .ok rs) :
    ∀ r ∈ rs, ∃ c, c ∈ cs ∧ r.collection = some c := by
  induction cs generalizing rs with
  | nil =>
      unfold fanOutResults at h
      cases h
      intro r hr
      simp at hr
  | cons c rest ih =>
      unfold fanOutResults at h
      rcases hok : w.searchResult c emb with e | hs
      · rw [hok] at h; cases h
      · rw [hok] at h
        rcases htail : fanOutResults w emb rest with e | tail
        · rw [htail] at h; cases h
        · rw [htail] at h
          cases h
          intro r hr
          rcases List.mem_append.mp hr with hhead | htl
          · rcases List.mem_map.mp hhead with ⟨h2, _, heq⟩
            exact ⟨c, List.mem_cons_self c rest, heq ▸ rfl⟩
          · rcases ih tail htail r htl with ⟨c2, hc2, hcol⟩
            exact ⟨c2, List.mem_cons_of_mem c hc2, hcol⟩

theorem fanOutResults_error_of (w : World σ π ε) (emb : List ε) (cs : List String)
    (c : String) (e : String) (hc : c ∈ cs) (he : w.searchResult c emb = .error e) :
    ∃ e2, fanOutResults w emb cs = .error e2 := by
  induction cs with
  | nil => simp at hc
  | cons c0 rest ih =>
      unfold fanOutResults
      rcases List.mem_cons.mp hc with heq | htail
      · subst heq
        rw [he]
        exact ⟨e, rfl⟩
      · rcases hok : w.searchResult c0 emb with e0 | hs
        · exact ⟨e0, rfl⟩
        · rcases ih htail with ⟨e2, he2⟩
          rw [he2]
          exact ⟨e2, rfl⟩

theorem fanOutResults_unique_error (w : World σ π ε) (emb : List ε) (cs : List String)
    (c : String) (e : String) (hc : c ∈ cs) (he : w.searchResult c emb = .error e)
    (hrest : ∀ c2 ∈ cs, c2 ≠ c → (w.searchResult c2 emb).isOk = true) :
    fanOutResults w emb cs = .error e := by
  induction cs with
  | nil => simp at hc
  | cons c0 rest ih =>
      unfold fanOutResults
      by_cases hc0 : c0 = c
      · subst hc0
        rw [he]
      · have hc0ok : (w.searchResult c0 emb).isOk = true :=
          hrest c0 (List.mem_cons_self c0 rest) hc0
        rcases hok : w.searchResult c0 emb with e0 | hs
        · rw [hok] at hc0ok; simp [Except.isOk, Except.toBool] at hc0ok
        · have hcr : c ∈ rest := by
            rcases List.mem_cons.mp hc with heq | htail
            · exact absurd heq.symm hc0
            · exact htail
          rw [ih hcr (fun c2 h2 => hrest c2 (List.mem_cons_of_mem c0 h2))]

end EHCode

namespace EHCode

theorem env_getEmbedding_noCfg (w : World σ π ε) (text : String) (settings : Settings)
    (hfill : openAIFilled settings = false) :
    Env.getEmbedding w text settings =
      (.error "OpenAI settings not configured. Please configure OpenAI settings in Void Settings.", []) := by
  unfold Env.getEmbedding
  rw [hfill]
  simp

theorem env_getEmbedding_ok (w : World σ π ε) (text : String) (settings : Settings)
    (hfill : openAIFilled settings = true) (v : List ε)
    (hemb : w.embedResult text = .ok v) (hlen : v.length = Env.VECTOR_SIZE) :
    Env.getEmbedding w text settings = (.ok v, [NetEv.embed text]) := by
  unfold Env.getEmbedding
  rw [hfill, hemb]
  simp [hlen]

theorem env_getEmbedding_dim (w : World σ π ε) (text : String) (settings : Settings)
    (hfill : openAIFilled settings = true) (v : List ε)
    (hemb : w.embedResult text = .ok v) (hlen : v.length ≠ Env.VECTOR_SIZE) :
    Env.getEmbedding w text settings =
      (.error ("Unexpected embedding size: " ++ toString v.length ++
        " (expected " ++ toString Env.VECTOR_SIZE ++ ")"), [NetEv.embed text]) := by
  unfold Env.getEmbedding
  rw [hfill, hemb]
  simp [hlen]

theorem env_getEmbedding_ok_inv (w : World σ π ε) (text : String) (settings : Settings)
    (v : List ε) (t : List (NetEv ε))
    (h : Env.getEmbedding w text settings = (.ok v, t)) :
    openAIFilled settings = true ∧ w.embedResult text = .ok v ∧
      v.length = Env.VECTOR_SIZE ∧ t = [NetEv.embed text] := by
  unfold Env.getEmbedding at h
  cases hfill : openAIFilled settings with
  | false => rw [hfill] at h; simp at h
  | true =>
      rw [hfill] at h
      simp only [Bool.not_true, Bool.false_eq_true, if_false] at h
      rcases hemb : w.embedResult text with e | v2
      · rw [hemb] at h; simp at h
      · rw [hemb] at h
        by_cases hlen : v2.length = Env.VECTOR_SIZE
        · simp only [hlen, ne_eq, not_true_eq_false, if_false] at h
          rw [Prod.mk.injEq] at h
          obtain ⟨h1, h2⟩ := h
          injection h1 with h1
          subst h1
          exact ⟨rfl, rfl, hlen, h2.symm⟩
        · simp [hlen] at h

theorem env_call_noCollections (w : World σ π ε) (cache : List String)
    (params : SearchParams σ) (settings : Settings)
    (h0 : (Env.ensureCollectionsExist w cache params.collectionNames).existing = []) :
    Env.call w cache "search" params settings =
      { result := .error "None of the requested collections exist in Qdrant.",
        cache := (Env.ensureCollectionsExist w cache params.collectionNames).cache,
        trace := (Env.ensureCollectionsExist w cache params.collectionNames).trace } := by
  unfold Env.call
  simp [h0]

theorem env_call_embedError (w : World σ π ε) (cache : List String)
    (params : SearchParams σ) (settings : Settings) (e : String) (t2 : List (NetEv ε))
    (hne : (Env.ensureCollectionsExist w cache params.collectionNames).existing ≠ [])
    (hge : Env.getEmbedding w params.query settings = (.error e, t2)) :
    Env.call w cache "search" params settings =
      { result := .error e,
        cache := (Env.ensureCollectionsExist w cache params.collectionNames).cache,
        trace := (Env.ensureCollectionsExist w cache params.collectionNames).trace ++ t2 } := by
  unfold Env.call
  rw [hge]
  simp [List.length_eq_zero, hne]

theorem env_call_search (w : World σ π ε) (cache : List String)
    (params : SearchParams σ) (settings : Settings)
    (hne : (Env.ensureCollectionsExist w cache params.collectionNames).existing ≠ [])
    (hfill : openAIFilled settings = true) (v : List ε)
    (hemb : w.embedResult params.query = .ok v) (hlen : v.length = Env.VECTOR_SIZE) :
    Env.call w cache "search" params settings =
      { result := fanOutResults w v (Env.ensureCollectionsExist w cache params.collectionNames).existing,
        cache := (Env.ensureCollectionsExist w cache params.collectionNames).cache,
        trace := (Env.ensureCollectionsExist w cache params.collectionNames).trace ++
          [NetEv.embed params.query] ++
          fanOutTrace v (Env.ensureCollectionsExist w cache params.collectionNames).existing } := by
  unfold Env.call
  rw [env_getEmbedding_ok w params.query settings hfill v hemb hlen]
  simp [List.length_eq_zero, hne]

theorem env_call_ok_inv (w : World σ π ε) (cache : List String)
    (params : SearchParams σ) (settings : Settings) (rs : List (SearchResult σ π))
    (h : (Env.call w cache "search" params settings).result = .ok rs) :
    ∃ v, openAIFilled settings = true ∧ w.embedResult params.query = .ok v ∧
      v.length = Env.VECTOR_SIZE ∧
      fanOutResults w v (Env.ensureCollectionsExist w cache params.collectionNames).existing = .ok rs := by
  unfold Env.call at h
  simp only [if_pos rfl] at h
  by_cases h0 : (Env.ensureCollectionsExist w cache params.collectionNames).existing.length = 0
  · simp [h0] at h
  · simp only [h0, if_false] at h
    rcases hge : Env.getEmbedding w params.query settings with ⟨res, t2⟩
    rcases res with e | v
    · rw [hge] at h; simp at h
    · rw [hge] at h
      simp only [CallOut.result] at h
      rcases env_getEmbedding_ok_inv w params.query settings v t2 hge with ⟨hfill, hemb, hlen, _⟩
      exact ⟨v, hfill, hemb, hlen, h⟩

end EHCode

namespace EHCode

theorem cfg_ensure_eq_env (w : World σ π ε) (st : Cfg.State) (ns : List String)
    (hcl : st.hasClient = true) :
    Cfg.ensureCollectionsExist w st ns =
      ((Env.ensureCollectionsExist w st.cache ns).existing,
       ⟨(Env.ensureCollectionsExist w st.cache ns).cache, true⟩,
       (Env.ensureCollectionsExist w st.cache ns).trace) := by
  obtain ⟨cache0, hasC⟩ := st
  simp only at hcl
  subst hcl
  unfold Cfg.ensureCollectionsExist Env.ensureCollectionsExist
  rcases w.listResult with e | available <;> simp

theorem cfg_getEmbedding_ok (w : World σ π ε) (text : String) (v : List ε)
    (hemb : w.embedResult text = .ok v) (hlen : v.length = Cfg.VECTOR_SIZE) :
    Cfg.getEmbedding w text = (.ok v, [NetEv.embed text]) := by
  unfold Cfg.getEmbedding
  rw [hemb]
  simp [hlen]

theorem cfg_getEmbedding_ok_inv (w : World σ π ε) (text : String)
    (v : List ε) (t : List (NetEv ε)) (h : Cfg.getEmbedding w text = (.ok v, t)) :
    w.embedResult text = .ok v ∧ v.length = Cfg.VECTOR_SIZE ∧ t = [NetEv.embed text] := by
  unfold Cfg.getEmbedding at h
  rcases hemb : w.embedResult text with e | v2
  · rw [hemb] at h; simp at h
  · rw [hemb] at h
    by_cases hlen : v2.length = Cfg.VECTOR_SIZE
    · simp only [hlen, ne_eq, not_true_eq_false, if_false] at h
      rw [Prod.mk.injEq] at h
      obtain ⟨h1, h2⟩ := h
      injection h1 with h1
      subst h1
      exact ⟨rfl, hlen, h2.symm⟩
    · simp [hlen] at h

theorem cfg_call_noOpenAI (w : World σ π ε) (st : Cfg.State)
    (params : SearchParams σ) (settings : Settings)
    (hfill : openAIFilled settings = false) :
    Cfg.call w st "search" params settings =
      { result := .error "OpenAI settings not configured. Please configure OpenAI settings in EH Code Settings.",
        state := st, trace := [] } := by
  unfold Cfg.call
  rw [hfill]
  simp

theorem cfg_call_noQdrant (w : World σ π ε) (st : Cfg.State)
    (params : SearchParams σ) (settings : Settings)
    (hfill : openAIFilled settings = true)
    (hq : truthy settings.globalSettings.qdrantUrl = false ∨
          truthy settings.globalSettings.qdrantApiKey = false) :
    Cfg.call w st "search" params settings =
      { result := .error "Qdrant configuration is missing. Please configure Qdrant URL and API Key in Settings > General.",
        state := st, trace := [] } := by
  unfold Cfg.call
  rw [hfill]
  rcases hq with hq | hq <;> simp [hq]

theorem cfg_call_noCollections (w : World σ π ε) (st : Cfg.State)
    (params : SearchParams σ) (settings : Settings)
    (hfill : openAIFilled settings = true)
    (hurl : truthy settings.globalSettings.qdrantUrl = true)
    (hkey : truthy settings.globalSettings.qdrantApiKey = true)
    (h0 : (Env.ensureCollectionsExist w st.cache params.collectionNames).existing = []) :
    Cfg.call w st "search" params settings =
      { result := .error "None of the requested collections exist in Qdrant.",
        state := ⟨(Env.ensureCollectionsExist w st.cache params.collectionNames).cache, true⟩,
        trace := (Env.ensureCollectionsExist w st.cache params.collectionNames).trace } := by
  unfold Cfg.call
  rw [hfill, hurl, hkey]
  simp only [Bool.not_true, Bool.or_self, Bool.false_eq_true, if_false]
  rw [cfg_ensure_eq_env w ⟨st.cache, true⟩ params.collectionNames rfl]
  simp [h0]

theorem cfg_call_search (w : World σ π ε) (st : Cfg.State)
    (params : SearchParams σ) (settings : Settings)
    (hfill : openAIFilled settings = true)
    (hurl : truthy settings.globalSettings.qdrantUrl = true)
    (hkey : truthy settings.globalSettings.qdrantApiKey = true)
    (hne : (Env.ensureCollectionsExist w st.cache params.collectionNames).existing ≠ [])
    (v : List ε) (hemb : w.embedResult params.query = .ok v)
    (hlen : v.length = Cfg.VECTOR_SIZE) :
    Cfg.call w st "search" params settings =
      { result := fanOutResults w v (Env.ensureCollectionsExist w st.cache params.collectionNames).existing,
        state := ⟨(Env.ensureCollectionsExist w st.cache params.collectionNames).cache, true⟩,
        trace := (Env.ensureCollectionsExist w st.cache params.collectionNames).trace ++
          [NetEv.embed params.query] ++
          fanOutTrace v (Env.ensureCollectionsExist w st.cache params.collectionNames).existing } := by
  unfold Cfg.call
  rw [hfill, hurl, hkey]
  simp only [Bool.not_true, Bool.or_self, Bool.false_eq_true, if_false]
  rw [cfg_ensure_eq_env w ⟨st.cache, true⟩ params.collectionNames rfl,
    cfg_getEmbedding_ok w params.query v hemb hlen]
  simp [List.length_eq_zero, hne]

theorem cfg_call_ok_inv (w : World σ π ε) (st : Cfg.State)
    (params : SearchParams σ) (settings : Settings) (rs : List (SearchResult σ π))
    (h : (Cfg.call w st "search" params settings).result = .ok rs) :
    openAIFilled settings = true ∧
    ∃ v, w.embedResult params.query = .ok v ∧ v.length = Cfg.VECTOR_SIZE ∧
      fanOutResults w v (Env.ensureCollectionsExist w st.cache params.collectionNames).existing = .ok rs := by
  unfold Cfg.call at h
  rw [if_pos rfl] at h
  cases hfill : openAIFilled settings with
  | false => rw [hfill] at h; simp at h
  | true =>
      rw [hfill] at h
      simp only [Bool.not_true, Bool.false_eq_true, if_false] at h
      by_cases hq : (!truthy settings.globalSettings.qdrantUrl ||
          !truthy settings.globalSettings.qdrantApiKey) = true
      · rw [if_pos hq] at h; simp at h
      · rw [if_neg (by simpa using hq)] at h
        rw [cfg_ensure_eq_env w _ params.collectionNames rfl] at h
        by_cases h0 : (Env.ensureCollectionsExist w st.cache params.collectionNames).existing.length = 0
        · simp [h0] at h
        · simp only [h0, if_false] at h
          rcases hge : Cfg.getEmbedding w params.query with ⟨res, t2⟩
          rcases res with e | v
          · rw [hge] at h; simp at h
          · rw [hge] at h
            simp only [Cfg.CallOut.result] at h
            rcases cfg_getEmbedding_ok_inv w params.query v t2 hge with ⟨hemb, hlen, _⟩
            exact ⟨rfl, v, hemb, hlen, h⟩

end EHCode

namespace EHCode

theorem cfg_call_embedError (w : World σ π ε) (st : Cfg.State)
    (params : SearchParams σ) (settings : Settings) (e : String) (t2 : List (NetEv ε))
    (hfill : openAIFilled settings = true)
    (hurl : truthy settings.globalSettings.qdrantUrl = true)
    (hkey : truthy settings.globalSettings.qdrantApiKey = true)
    (hne : (Env.ensureCollectionsExist w st.cache params.collectionNames).existing ≠ [])
    (hge : Cfg.getEmbedding w params.query = (.error e, t2)) :
    Cfg.call w st "search" params settings =
      { result := .error e,
        state := ⟨(Env.ensureCollectionsExist w st.cache params.collectionNames).cache, true⟩,
        trace := (Env.ensureCollectionsExist w st.cache params.collectionNames).trace ++ t2 } := by
  unfold Cfg.call
  rw [hfill, hurl, hkey]
  simp only [Bool.not_true, Bool.or_self, Bool.false_eq_true, if_false]
  rw [cfg_ensure_eq_env w ⟨st.cache, true⟩ params.collectionNames rfl, hge]
  simp [List.length_eq_zero, hne]

theorem single_ensure_cached (w : World σ π ε) (cache : List String) (name : String)
    (hmem : name ∈ cache) :
    Single.ensureCollectionExists w cache name = (true, cache, []) := by
  unfold Single.ensureCollectionExists
  simp [hmem]

theorem single_getEmbedding_ok_inv (w : World σ π ε) (text : String) (settings : Settings)
    (v : List ε) (t : List (NetEv ε))
    (h : Single.getEmbedding w text settings = (.ok v, t)) :
    openAIFilled settings = true ∧ w.embedResult text = .ok v ∧
      v.length = Single.VECTOR_SIZE ∧ t = [NetEv.embed text] := by
  unfold Single.getEmbedding at h
  cases hfill : openAIFilled settings with
  | false => rw [hfill] at h; simp at h
  | true =>
      rw [hfill] at h
      simp only [Bool.not_true, Bool.false_eq_true, if_false] at h
      rcases hemb : w.embedResult text with e | v2
      · rw [hemb] at h; simp at h
      · rw [hemb] at h
        by_cases hlen : v2.length = Single.VECTOR_SIZE
        · simp only [hlen, ne_eq, not_true_eq_false, if_false] at h
          rw [Prod.mk.injEq] at h
          obtain ⟨h1, h2⟩ := h
          injection h1 with h1
          subst h1
          exact ⟨rfl, rfl, hlen, h2.symm⟩
        · simp [hlen] at h

theorem single_call_ok_inv (w : World σ π ε) (cache : List String)
    (params : Single.SearchParams σ) (settings : Settings) (hs : List (RawHit σ π))
    (h : (Single.call w cache "search" params settings).result = .ok hs) :
    openAIFilled settings = true ∧
    ∃ v, w.embedResult params.query = .ok v ∧ v.length = Single.VECTOR_SIZE ∧
      w.searchResult params.collectionName v = .ok hs := by
  unfold Single.call at h
  rw [if_pos rfl] at h
  cases hex : (Single.ensureCollectionExists w cache params.collectionName).1 with
  | false => simp [hex] at h
  | true =>
      simp only [hex, Bool.not_true, Bool.false_eq_true, if_false] at h
      rcases hge : Single.getEmbedding w params.query settings with ⟨res, t2⟩
      rcases res with e | v
      · rw [hge] at h; simp at h
      · rw [hge] at h
        simp only [] at h
        rcases hs2 : w.searchResult params.collectionName v with e | hits
        · rw [hs2] at h; simp at h
        · rw [hs2] at h
          simp only [Single.CallOut.result] at h
          injection h with h
          subst h
          rcases single_getEmbedding_ok_inv w params.query settings v t2 hge with
            ⟨hfill, hemb, hlen, _⟩
          exact ⟨hfill, v, hemb, hlen, hs2⟩

theorem env_ensure_cache_sub (w : World σ π ε) (cache : List String) (ns : List String) :
    cache ⊆ (Env.ensureCollectionsExist w cache ns).cache := by
  unfold Env.ensureCollectionsExist
  rcases w.listResult with e | available
  · exact fun a ha => ha
  · exact collectExisting_cache_subset available ns cache

theorem env_init_cache_sub (w : World σ π ε) (cache : List String) :
    cache ⊆ (Env.initializeCollections w cache).1 := by
  unfold Env.initializeCollections
  rcases w.listResult with e | names
  · exact fun a ha => ha
  · exact foldl_setAdd_subset names cache

theorem env_call_cache_sub (w : World σ π ε) (cache : List String) (command : String)
    (params : SearchParams σ) (settings : Settings) :
    cache ⊆ (Env.call w cache command params settings).cache := by
  unfold Env.call
  by_cases hcmd : command = "search"
  · subst hcmd
    rw [if_pos rfl]
    by_cases h0 : (Env.ensureCollectionsExist w cache params.collectionNames).existing.length = 0
    · simp only [h0, if_true]
      exact env_ensure_cache_sub w cache params.collectionNames
    · simp only [h0, if_false]
      rcases hge : Env.getEmbedding w params.query settings with ⟨res, t2⟩
      rcases res with e | v <;>
        simpa using env_ensure_cache_sub w cache params.collectionNames
  · rw [if_neg hcmd]
    exact fun a ha => ha

end EHCode

namespace EHCode

theorem cfg_init_cache_sub (w : World σ π ε) (st : Cfg.State) :
    st.cache ⊆ (Cfg.initializeCollections w st).1.cache := by
  unfold Cfg.initializeCollections
  cases hcl : st.hasClient with
  | false => simp [hcl]
  | true =>
      simp only [hcl, if_true]
      rcases w.listResult with e | names
      · exact fun a ha => ha
      · simpa using foldl_setAdd_subset names st.cache

theorem cfg_ensure_cache_sub (w : World σ π ε) (st : Cfg.State) (ns : List String) :
    st.cache ⊆ (Cfg.ensureCollectionsExist w st ns).2.1.cache := by
  unfold Cfg.ensureCollectionsExist
  cases hcl : st.hasClient with
  | false => simp [hcl]
  | true =>
      simp only [hcl, Bool.not_true, Bool.false_eq_true, if_false]
      rcases w.listResult with e | available
      · exact fun a ha => ha
      · simpa using collectExisting_cache_subset available ns st.cache

theorem cfg_call_cache_sub (w : World σ π ε) (st : Cfg.State) (command : String)
    (params : SearchParams σ) (settings : Settings) :
    st.cache ⊆ (Cfg.call w st command params settings).state.cache := by
  by_cases hcmd : command = "search"
  · subst hcmd
    cases hfill : openAIFilled settings with
    | false =>
        rw [cfg_call_noOpenAI w st params settings hfill]
        exact fun a ha => ha
    | true =>
        cases hurl : truthy settings.globalSettings.qdrantUrl with
        | false =>
            rw [cfg_call_noQdrant w st params settings hfill (Or.inl hurl)]
            exact fun a ha => ha
        | true =>
            cases hkey : truthy settings.globalSettings.qdrantApiKey with
            | false =>
                rw [cfg_call_noQdrant w st params settings hfill (Or.inr hkey)]
                exact fun a ha => ha
            | true =>
                by_cases h0 :
                    (Env.ensureCollectionsExist w st.cache params.collectionNames).existing = []
                · rw [cfg_call_noCollections w st params settings hfill hurl hkey h0]
                  exact env_ensure_cache_sub w st.cache params.collectionNames
                · rcases hge : Cfg.getEmbedding w params.query with ⟨res, t2⟩
                  rcases res with e | v
                  · rw [cfg_call_embedError w st params settings e t2 hfill hurl hkey h0 hge]
                    exact env_ensure_cache_sub w st.cache params.collectionNames
                  · rcases cfg_getEmbedding_ok_inv w params.query v t2 hge with ⟨hemb, hlen, _⟩
                    rw [cfg_call_search w st params settings hfill hurl hkey h0 v hemb hlen]
                    exact env_ensure_cache_sub w st.cache params.collectionNames
  · unfold Cfg.call
    rw [if_neg hcmd]
    exact fun a ha => ha

theorem single_ensure_cache_sub (w : World σ π ε) (cache : List String) (name : String) :
    cache ⊆ (Single.ensureCollectionExists w cache name).2.1 := by
  unfold Single.ensureCollectionExists
  by_cases hmem : name ∈ cache
  · simp [hmem]
  · simp only [hmem, if_false]
    rcases w.listResult with e | available
    · exact fun a ha => ha
    · by_cases hav : name ∈ available
      · simpa [hav] using setAdd_subset cache name
      · simp [hav]

theorem single_call_cache_sub (w : World σ π ε) (cache : List String) (command : String)
    (params : Single.SearchParams σ) (settings : Settings) :
    cache ⊆ (Single.call w cache command params settings).cache := by
  unfold Single.call
  by_cases hcmd : command = "search"
  · subst hcmd
    rw [if_pos rfl]
    cases hex : (Single.ensureCollectionExists w cache params.collectionName).1 with
    | false => simpa [hex] using single_ensure_cache_sub w cache params.collectionName
    | true =>
        simp only [hex, Bool.not_true, Bool.false_eq_true, if_false]
        rcases hge : Single.getEmbedding w params.query settings with ⟨res, t2⟩
        rcases res with e | v
        · simpa using single_ensure_cache_sub w cache params.collectionName
        · rcases hs2 : w.searchResult params.collectionName v with e | hits <;>
            simpa [hs2] using single_ensure_cache_sub w cache params.collectionName
  · rw [if_neg hcmd]
    exact fun a ha => ha

end EHCode

namespace EHCode

theorem env_ensure_trace (w : World σ π ε) (cache : List String) (ns : List String) :
    (Env.ensureCollectionsExist w cache ns).trace = [NetEv.listCollections] := by
  unfold Env.ensureCollectionsExist
  rcases w.listResult with e | available <;> rfl

theorem env_existing_sub_names (w : World σ π ε) (cache : List String) (ns : List String) :
    (Env.ensureCollectionsExist w cache ns).existing ⊆ ns := by
  unfold Env.ensureCollectionsExist
  rcases w.listResult with e | available
  · simp
  · simp only
    rw [collectExisting_fst]
    exact fun x hx => List.mem_of_mem_filter hx

theorem env_existing_mem_cache (w : World σ π ε) (cache : List String) (ns : List String)
    (n : String) (hmem : n ∈ (Env.ensureCollectionsExist w cache ns).existing) :
    n ∈ (Env.ensureCollectionsExist w cache ns).cache := by
  unfold Env.ensureCollectionsExist at hmem ⊢
  rcases hl : w.listResult with e | available
  · rw [hl] at hmem
    simp at hmem
  · rw [hl] at hmem
    exact collectExisting_mem_cache available ns cache n hmem

theorem fanOutResults_ok_eq (w : World σ π ε) (emb : List ε) (cs : List String)
    (rs : List (SearchResult σ π)) (h : fanOutResults w emb cs = .ok rs) :
    rs = cs.flatMap (fun c => (hitsOf (w.searchResult c emb)).map (fun h2 => annotate h2 c)) := by
  induction cs generalizing rs with
  | nil =>
      unfold fanOutResults at h
      injection h with h
      subst h
      rfl
  | cons c rest ih =>
      unfold fanOutResults at h
      rcases hok : w.searchResult c emb with e | hs
      · rw [hok] at h; cases h
      · rw [hok] at h
        rcases htail : fanOutResults w emb rest with e | tail
        · rw [htail] at h; cases h
        · rw [htail] at h
          injection h with h
          subst h
          simp [hitsOf, hok, ih tail htail]

theorem cfg_getEmbedding_dim (w : World σ π ε) (text : String) (v : List ε)
    (hemb : w.embedResult text = .ok v) (hlen : v.length ≠ Cfg.VECTOR_SIZE) :
    Cfg.getEmbedding w text =
      (.error ("Unexpected embedding size: " ++ toString v.length ++
        " (expected " ++ toString Cfg.VECTOR_SIZE ++ ")"), [NetEv.embed text]) := by
  unfold Cfg.getEmbedding
  rw [hemb]
  simp [hlen]

end EHCode

namespace EHCode

/-- Concrete oracle used by witnesses and counterexamples: the vector
database lists one collection "a", the embedding provider returns a
1536-entry vector, and the search endpoint returns one hit. -/
def wOk : World Nat Nat Nat :=
  { listResult := .ok ["a"],
    embedResult := fun _ => .ok (List.replicate 1536 0),
    searchResult := fun _ _ => .ok [⟨"id1", 7, 0⟩] }

/-- Concrete oracle where every network endpoint rejects. -/
def wDown : World Nat Nat Nat :=
  { listResult := .error "listing failed",
    embedResult := fun _ => .error "embedding failed",
    searchResult := fun _ _ => .error "search failed" }

/-- Settings bundle with no provider configuration at all. -/
def settingsNone : Settings := { openAI := none, globalSettings := ⟨none, none⟩ }

/-- Fully filled-in settings bundle. -/
def settingsFull : Settings :=
  { openAI := some ⟨true, "https://api.example", "sk-test"⟩,
    globalSettings := ⟨some "https://qdrant.example", some "qdrant-key"⟩ }

/-- Multi-collection request targeting the single collection "a". -/
def params1 : SearchParams Nat := ⟨"hello", ["a"], 5, 0, true⟩

/-- Single-collection request targeting collection "a". -/
def sparams1 : Single.SearchParams Nat := ⟨"hello", "a", 5, 0, true⟩

/-- C1 counterexample: in the env-configured variant, a request whose
settings bundle has no embedding-provider configuration still triggers the
collection-listing network call before failing with the configuration
error, contradicting "fails before any network call". -/
theorem c1_counterexample :
    openAIFilled settingsNone = false ∧
    (Env.call wOk [] "search" params1 settingsNone).result =
      .error "OpenAI settings not configured. Please configure OpenAI settings in Void Settings." ∧
    (Env.call wOk [] "search" params1 settingsNone).trace = [NetEv.listCollections] := by
  refine ⟨rfl, rfl, rfl⟩

/-- C1 (amended): in the settings-configured variant (part_000), a missing
embedding-provider configuration or missing Qdrant URL/API key fails with a
configuration error before any network call (empty network trace); in the
env-configured variant, a missing embedding-provider configuration still
fails the request and never reaches the embedding or search calls, but only
after the collection-listing call. -/
theorem c1_configuration_gate (w : World σ π ε) (st : Cfg.State) (cache : List String)
    (params : SearchParams σ) (settings : Settings) :
    (openAIFilled settings = false →
      Cfg.call w st "search" params settings =
        { result := .error "OpenAI settings not configured. Please configure OpenAI settings in EH Code Settings.",
          state := st, trace := [] }) ∧
    (openAIFilled settings = true →
      (truthy settings.globalSettings.qdrantUrl = false ∨
        truthy settings.globalSettings.qdrantApiKey = false) →
      Cfg.call w st "search" params settings =
        { result := .error "Qdrant configuration is missing. Please configure Qdrant URL and API Key in Settings > General.",
          state := st, trace := [] }) ∧
    (openAIFilled settings = false →
      (∃ e, (Env.call w cache "search" params settings).result = .error e) ∧
      (∀ t, NetEv.embed t ∉ (Env.call w cache "search" params settings).trace) ∧
      (∀ c vec, NetEv.search c vec ∉ (Env.call w cache "search" params settings).trace)) := by
  refine ⟨fun hfill => cfg_call_noOpenAI w st params settings hfill,
    fun hfill hq => cfg_call_noQdrant w st params settings hfill hq,
    fun hfill => ?_⟩
  by_cases h0 : (Env.ensureCollectionsExist w cache params.collectionNames).existing = []
  · rw [env_call_noCollections w cache params settings h0]
    refine ⟨⟨_, rfl⟩, ?_, ?_⟩ <;> intro a <;>
      simp [env_ensure_trace w cache params.collectionNames]
  · rw [env_call_embedError w cache params settings _ [] h0
      (env_getEmbedding_noCfg w params.query settings hfill)]
    refine ⟨⟨_, rfl⟩, ?_, ?_⟩ <;> intro a <;>
      simp [env_ensure_trace w cache params.collectionNames]

/-- C1 witness: the amended theorem applied at concrete inputs. -/
theorem c1_witness :
    Cfg.call wDown ⟨[], false⟩ "search" params1 settingsNone =
      { result := .error "OpenAI settings not configured. Please configure OpenAI settings in EH Code Settings.",
        state := ⟨[], false⟩, trace := [] } ∧
    NetEv.embed "hello" ∉ (Env.call wOk [] "search" params1 settingsNone).trace :=
  ⟨(c1_configuration_gate wDown ⟨[], false⟩ [] params1 settingsNone).1 rfl,
   ((c1_configuration_gate wOk ⟨[], false⟩ [] params1 settingsNone).2.2 rfl).2.1 "hello"⟩

set_option maxRecDepth 8000 in
/-- C2 counterexample: the multi-collection variant annotates results with
the originating collection even when the request targets exactly one
collection, contradicting "when the request targeted a single collection,
results carry no collection field". -/
theorem c2_counterexample :
    params1.collectionNames = ["a"] ∧
    (Env.call wOk [] "search" params1 settingsFull).result =
      .ok [⟨"id1", 7, 0, some "a"⟩] := by
  refine ⟨rfl, rfl⟩

/-- Multi-collection request targeting "a" and "b" (only "a" exists in
the wOk oracle), used to exercise the settings-configured variant. -/
def params2 : SearchParams Nat := ⟨"hello", ["a", "b"], 5, 0, true⟩

/-- C2 (amended): results of both multi-collection variants (env-configured
and settings-configured) always carry the originating collection annotation
(one of the requested names), regardless of how many collections the
request targeted; the single-collection variant returns the raw store hits
unchanged, which carry no collection field. -/
theorem c2_collection_tagging (w : World σ π ε) (cache : List String) (st : Cfg.State)
    (params : SearchParams σ) (sparams : Single.SearchParams σ) (settings : Settings)
    (rs : List (SearchResult σ π)) (hs : List (RawHit σ π)) :
    ((Env.call w cache "search" params settings).result = .ok rs →
      ∀ r ∈ rs, ∃ c, c ∈ params.collectionNames ∧ r.collection = some c) ∧
    ((Cfg.call w st "search" params settings).result = .ok rs →
      ∀ r ∈ rs, ∃ c, c ∈ params.collectionNames ∧ r.collection = some c) ∧
    ((Single.call w cache "search" sparams settings).result = .ok hs →
      ∃ v, w.embedResult sparams.query = .ok v ∧
        w.searchResult sparams.collectionName v = .ok hs) := by
  refine ⟨?_, ?_, ?_⟩
  · intro h r hr
    rcases env_call_ok_inv w cache params settings rs h with ⟨v, _, _, _, hfan⟩
    rcases fanOutResults_ok_mem w v _ rs hfan r hr with ⟨c, hc, hcol⟩
    exact ⟨c, env_existing_sub_names w cache params.collectionNames hc, hcol⟩
  · intro h r hr
    rcases cfg_call_ok_inv w st params settings rs h with ⟨_, v, _, _, hfan⟩
    rcases fanOutResults_ok_mem w v _ rs hfan r hr with ⟨c, hc, hcol⟩
    exact ⟨c, env_existing_sub_names w st.cache params.collectionNames hc, hcol⟩
  · intro h
    rcases single_call_ok_inv w cache sparams settings hs h with ⟨_, v, hemb, _, hsearch⟩
    exact ⟨v, hemb, hsearch⟩

set_option maxRecDepth 8000 in
/-- C2 witness: the amended theorem applied at concrete inputs, one per
variant (the settings-configured application uses the two-name request
of which only "a" is confirmed). -/
theorem c2_witness :
    (∃ c, c ∈ params1.collectionNames ∧
      (SearchResult.mk "id1" 7 0 (some "a") : SearchResult Nat Nat).collection = some c) ∧
    (∃ c, c ∈ params2.collectionNames ∧
      (SearchResult.mk "id1" 7 0 (some "a") : SearchResult Nat Nat).collection = some c) ∧
    (∃ v, wOk.embedResult sparams1.query = .ok v ∧
      wOk.searchResult sparams1.collectionName v = .ok [⟨"id1", 7, 0⟩]) :=
  ⟨(c2_collection_tagging wOk [] ⟨[], false⟩ params1 sparams1 settingsFull
      [⟨"id1", 7, 0, some "a"⟩] [⟨"id1", 7, 0⟩]).1 rfl
      ⟨"id1", 7, 0, some "a"⟩ (List.mem_singleton.mpr rfl),
   (c2_collection_tagging wOk [] ⟨[], false⟩ params2 sparams1 settingsFull
      [⟨"id1", 7, 0, some "a"⟩] [⟨"id1", 7, 0⟩]).2.1 rfl
      ⟨"id1", 7, 0, some "a"⟩ (List.mem_singleton.mpr rfl),
   (c2_collection_tagging wOk [] ⟨[], false⟩ params1 sparams1 settingsFull
      [⟨"id1", 7, 0, some "a"⟩] [⟨"id1", 7, 0⟩]).2.2 rfl⟩

end EHCode

namespace EHCode

/-- C3 counterexample: in the multi-collection variant, a requested name
that is already in the local cache is NOT accepted immediately — a fresh
listing call is still issued, and when that listing fails the cached name
is rejected — contradicting "each requested name that is already in the
local cache is accepted immediately without contacting the vector
database". -/
theorem c3_counterexample :
    "a" ∈ (["a"] : List String) ∧
    (Env.ensureCollectionsExist wDown ["a"] ["a"]).existing = [] ∧
    (Env.ensureCollectionsExist wDown ["a"] ["a"]).trace = [NetEv.listCollections] := by
  refine ⟨by decide, rfl, rfl⟩

/-- C3 (amended): the multi-collection validation issues exactly one fresh
listing call per validation call regardless of the cache, accepts exactly
the requested names present in that authoritative listing (in input order),
and adds the confirmed names to the cache; only the single-collection
variant accepts a cached name immediately without contacting the vector
database, and it issues at most one listing call per validation call. -/
theorem c3_registry_validation (w : World σ π ε) (cache : List String)
    (ns : List String) (name : String) (available : List String) :
    ((Env.ensureCollectionsExist w cache ns).trace = [NetEv.listCollections]) ∧
    (w.listResult = .ok available →
      (Env.ensureCollectionsExist w cache ns).existing =
        ns.filter (fun n => decide (n ∈ available)) ∧
      ∀ n ∈ (Env.ensureCollectionsExist w cache ns).existing,
        n ∈ (Env.ensureCollectionsExist w cache ns).cache) ∧
    (name ∈ cache →
      Single.ensureCollectionExists w cache name = (true, cache, [])) ∧
    ((Single.ensureCollectionExists w cache name).2.2 = [] ∨
      (Single.ensureCollectionExists w cache name).2.2 = [NetEv.listCollections]) := by
  refine ⟨env_ensure_trace w cache ns, fun hlist => ⟨?_, ?_⟩,
    fun hmem => single_ensure_cached w cache name hmem, ?_⟩
  · unfold Env.ensureCollectionsExist
    rw [hlist]
    exact collectExisting_fst available ns cache
  · exact fun n => env_existing_mem_cache w cache ns n
  · unfold Single.ensureCollectionExists
    by_cases hmem : name ∈ cache
    · simp [hmem]
    · simp only [hmem, if_false]
      rcases w.listResult with e | av
      · simp
      · by_cases hav : name ∈ av <;> simp [hav]

/-- C3 witness: the amended theorem applied at concrete inputs. -/
theorem c3_witness :
    (Env.ensureCollectionsExist wOk ["a"] ["a"]).existing =
      ["a"].filter (fun n => decide (n ∈ ["a"])) ∧
    Single.ensureCollectionExists wDown ["a"] "a" = (true, ["a"], []) :=
  ⟨((c3_registry_validation wOk ["a"] ["a"] "a" ["a"]).2.1 rfl).1,
   (c3_registry_validation wDown ["a"] ["a"] "a" ["a"]).2.2.1 (by decide)⟩

/-- C4: in both multi-collection variants, when the confirmed collection
subset is empty the request fails with the "no valid collections" error
and the embedding network call is never issued (no embed event in the
trace). -/
theorem c4_empty_confirmed_subset (w : World σ π ε) (cache : List String)
    (st : Cfg.State) (params : SearchParams σ) (settings : Settings) :
    ((Env.ensureCollectionsExist w cache params.collectionNames).existing = [] →
      (Env.call w cache "search" params settings).result =
        .error "None of the requested collections exist in Qdrant." ∧
      ∀ t, NetEv.embed t ∉ (Env.call w cache "search" params settings).trace) ∧
    (openAIFilled settings = true →
      truthy settings.globalSettings.qdrantUrl = true →
      truthy settings.globalSettings.qdrantApiKey = true →
      (Env.ensureCollectionsExist w st.cache params.collectionNames).existing = [] →
      (Cfg.call w st "search" params settings).result =
        .error "None of the requested collections exist in Qdrant." ∧
      ∀ t, NetEv.embed t ∉ (Cfg.call w st "search" params settings).trace) := by
  constructor
  · intro h0
    rw [env_call_noCollections w cache params settings h0]
    refine ⟨rfl, fun t => ?_⟩
    simp [env_ensure_trace w cache params.collectionNames]
  · intro hfill hurl hkey h0
    rw [cfg_call_noCollections w st params settings hfill hurl hkey h0]
    refine ⟨rfl, fun t => ?_⟩
    simp [env_ensure_trace w st.cache params.collectionNames]

/-- C4 witness: the theorem applied at a concrete input where the listing
call fails, so zero collections are confirmed. -/
theorem c4_witness :
    (Env.call wDown [] "search" params1 settingsFull).result =
      .error "None of the requested collections exist in Qdrant." ∧
    NetEv.embed "hello" ∉ (Cfg.call wDown ⟨[], false⟩ "search" params1 settingsFull).trace :=
  ⟨((c4_empty_confirmed_subset wDown [] ⟨[], false⟩ params1 settingsFull).1 rfl).1,
   ((c4_empty_confirmed_subset wDown [] ⟨[], false⟩ params1 settingsFull).2 rfl
      (by decide) (by decide) rfl).2 "hello"⟩

end EHCode

namespace EHCode

/-- Concrete oracle whose embedding endpoint returns a 2-entry vector
(wrong dimensionality). -/
def wBadDim : World Nat Nat Nat :=
  { listResult := .ok ["a"],
    embedResult := fun _ => .ok [0, 0],
    searchResult := fun _ _ => .ok [⟨"id1", 7, 0⟩] }

/-- Concrete oracle whose per-collection search endpoint rejects. -/
def wSearchFail : World Nat Nat Nat :=
  { listResult := .ok ["a"],
    embedResult := fun _ => .ok (List.replicate 1536 0),
    searchResult := fun _ _ => .error "search failed" }

/-- C5: in both multi-collection variants, when the embedding provider
returns a vector whose length differs from the configured dimensionality
(VECTOR_SIZE = 1536), the request fails with the dimension error and no
per-collection search network call is ever issued. -/
theorem c5_dimension_guard (w : World σ π ε) (cache : List String) (st : Cfg.State)
    (params : SearchParams σ) (settings : Settings) (v : List ε) :
    Env.VECTOR_SIZE = 1536 ∧ Cfg.VECTOR_SIZE = 1536 ∧
    (openAIFilled settings = true →
      (Env.ensureCollectionsExist w cache params.collectionNames).existing ≠ [] →
      w.embedResult params.query = .ok v →
      v.length ≠ 1536 →
      (Env.call w cache "search" params settings).result =
        .error ("Unexpected embedding size: " ++ toString v.length ++
          " (expected " ++ toString Env.VECTOR_SIZE ++ ")") ∧
      ∀ c vec, NetEv.search c vec ∉ (Env.call w cache "search" params settings).trace) ∧
    (openAIFilled settings = true →
      truthy settings.globalSettings.qdrantUrl = true →
      truthy settings.globalSettings.qdrantApiKey = true →
      (Env.ensureCollectionsExist w st.cache params.collectionNames).existing ≠ [] →
      w.embedResult params.query = .ok v →
      v.length ≠ 1536 →
      (Cfg.call w st "search" params settings).result =
        .error ("Unexpected embedding size: " ++ toString v.length ++
          " (expected " ++ toString Cfg.VECTOR_SIZE ++ ")") ∧
      ∀ c vec, NetEv.search c vec ∉ (Cfg.call w st "search" params settings).trace) := by
  refine ⟨rfl, rfl, ?_, ?_⟩
  · intro hfill hne hemb hlen
    rw [env_call_embedError w cache params settings _ _ hne
      (env_getEmbedding_dim w params.query settings hfill v hemb hlen)]
    refine ⟨rfl, fun c vec => ?_⟩
    simp [env_ensure_trace w cache params.collectionNames]
  · intro hfill hurl hkey hne hemb hlen
    rw [cfg_call_embedError w st params settings _ _ hfill hurl hkey hne
      (cfg_getEmbedding_dim w params.query v hemb hlen)]
    refine ⟨rfl, fun c vec => ?_⟩
    simp [env_ensure_trace w st.cache params.collectionNames]

/-- C5 witness: the theorem applied at a concrete input whose embedding
has length 2. -/
theorem c5_witness :
    (Env.call wBadDim [] "search" params1 settingsFull).result =
      .error ("Unexpected embedding size: " ++ toString ([0, 0] : List Nat).length ++
        " (expected " ++ toString Env.VECTOR_SIZE ++ ")") ∧
    NetEv.search "a" (List.replicate 1536 0) ∉
      (Cfg.call wBadDim ⟨[], false⟩ "search" params1 settingsFull).trace :=
  ⟨((c5_dimension_guard wBadDim [] ⟨[], false⟩ params1 settingsFull [0, 0]).2.2.1
      rfl (by decide) rfl (by decide)).1,
   ((c5_dimension_guard wBadDim [] ⟨[], false⟩ params1 settingsFull [0, 0]).2.2.2
      rfl (by decide) (by decide) (by decide) rfl (by decide)).2
      "a" (List.replicate 1536 0)⟩

/-- C6: in both multi-collection variants, if the per-collection search of
any confirmed collection rejects, the whole request fails (no success
value, hence no partial results), and when that collection is the only
failing one the request fails with exactly that error. -/
theorem c6_joint_failure (w : World σ π ε) (cache : List String) (st : Cfg.State)
    (params : SearchParams σ) (settings : Settings) (v : List ε) (c e : String) :
    (openAIFilled settings = true →
      w.embedResult params.query = .ok v →
      v.length = 1536 →
      c ∈ (Env.ensureCollectionsExist w cache params.collectionNames).existing →
      w.searchResult c v = .error e →
      (¬ ∃ rs, (Env.call w cache "search" params settings).result = .ok rs) ∧
      ((∀ c2 ∈ (Env.ensureCollectionsExist w cache params.collectionNames).existing,
          c2 ≠ c → (w.searchResult c2 v).isOk = true) →
        (Env.call w cache "search" params settings).result = .error e)) ∧
    (openAIFilled settings = true →
      truthy settings.globalSettings.qdrantUrl = true →
      truthy settings.globalSettings.qdrantApiKey = true →
      w.embedResult params.query = .ok v →
      v.length = 1536 →
      c ∈ (Env.ensureCollectionsExist w st.cache params.collectionNames).existing →
      w.searchResult c v = .error e →
      (¬ ∃ rs, (Cfg.call w st "search" params settings).result = .ok rs) ∧
      ((∀ c2 ∈ (Env.ensureCollectionsExist w st.cache params.collectionNames).existing,
          c2 ≠ c → (w.searchResult c2 v).isOk = true) →
        (Cfg.call w st "search" params settings).result = .error e)) := by
  constructor
  · intro hfill hemb hlen hc hce
    have hne := List.ne_nil_of_mem hc
    rw [env_call_search w cache params settings hne hfill v hemb hlen]
    constructor
    · rintro ⟨rs, hrs⟩
      simp only [CallOut.result] at hrs
      rcases fanOutResults_error_of w v _ c e hc hce with ⟨e2, he2⟩
      rw [he2] at hrs
      cases hrs
    · intro hrest
      simp only [CallOut.result]
      exact fanOutResults_unique_error w v _ c e hc hce hrest
  · intro hfill hurl hkey hemb hlen hc hce
    have hne := List.ne_nil_of_mem hc
    rw [cfg_call_search w st params settings hfill hurl hkey hne v hemb hlen]
    constructor
    · rintro ⟨rs, hrs⟩
      simp only [Cfg.CallOut.result] at hrs
      rcases fanOutResults_error_of w v _ c e hc hce with ⟨e2, he2⟩
      rw [he2] at hrs
      cases hrs
    · intro hrest
      simp only [Cfg.CallOut.result]
      exact fanOutResults_unique_error w v _ c e hc hce hrest

set_option maxRecDepth 8000 in
/-- C6 witness: the theorem applied at a concrete input whose only
confirmed collection has a failing search call. -/
theorem c6_witness :
    (Env.call wSearchFail [] "search" params1 settingsFull).result =
      .error "search failed" :=
  ((c6_joint_failure wSearchFail [] ⟨[], false⟩ params1 settingsFull
      (List.replicate 1536 0) "a" "search failed").1
    rfl rfl (by simp) (by decide) rfl).2 (by decide)

/-- C7: in both multi-collection variants, a successful response is the
concatenation of the annotated per-collection hit lists in exactly the
order of the confirmed-collections list (an earlier confirmed collection's
hits all precede a later one's), with no re-sorting across collections. -/
theorem c7_concatenation_order (w : World σ π ε) (cache : List String) (st : Cfg.State)
    (params : SearchParams σ) (settings : Settings) (rs : List (SearchResult σ π)) :
    ((Env.call w cache "search" params settings).result = .ok rs →
      ∃ v, w.embedResult params.query = .ok v ∧
        rs = (Env.ensureCollectionsExist w cache params.collectionNames).existing.flatMap
          (fun c => (hitsOf (w.searchResult c v)).map (fun h => annotate h c))) ∧
    ((Cfg.call w st "search" params settings).result = .ok rs →
      ∃ v, w.embedResult params.query = .ok v ∧
        rs = (Env.ensureCollectionsExist w st.cache params.collectionNames).existing.flatMap
          (fun c => (hitsOf (w.searchResult c v)).map (fun h => annotate h c))) := by
  constructor
  · intro h
    rcases env_call_ok_inv w cache params settings rs h with ⟨v, _, hemb, _, hfan⟩
    exact ⟨v, hemb, fanOutResults_ok_eq w v _ rs hfan⟩
  · intro h
    rcases cfg_call_ok_inv w st params settings rs h with ⟨_, v, hemb, _, hfan⟩
    exact ⟨v, hemb, fanOutResults_ok_eq w v _ rs hfan⟩

set_option maxRecDepth 8000 in
/-- C7 witness: the theorem applied at a concrete successful request. -/
theorem c7_witness :
    ∃ v, wOk.embedResult params1.query = .ok v ∧
      [(⟨"id1", 7, 0, some "a"⟩ : SearchResult Nat Nat)] =
        (Env.ensureCollectionsExist wOk [] params1.collectionNames).existing.flatMap
          (fun c => (hitsOf (wOk.searchResult c v)).map (fun h => annotate h c)) :=
  (c7_concatenation_order wOk [] ⟨[], false⟩ params1 settingsFull
      [⟨"id1", 7, 0, some "a"⟩]).1 rfl

end EHCode

namespace EHCode

/-- C8: when the authoritative listing call fails, the registry validation
of both multi-collection variants returns the empty confirmed set with the
cache unchanged and does not raise: the error is swallowed inside the
function (its total return type carries no error case) and only the failed
listing attempt appears in the network trace. -/
theorem c8_listing_failure (w : World σ π ε) (cache : List String) (st : Cfg.State)
    (ns : List String) (e : String) (hlist : w.listResult = .error e) :
    Env.ensureCollectionsExist w cache ns = ⟨[], cache, [NetEv.listCollections]⟩ ∧
    (st.hasClient = true →
      Cfg.ensureCollectionsExist w st ns = ([], st, [NetEv.listCollections])) := by
  constructor
  · unfold Env.ensureCollectionsExist
    rw [hlist]
  · intro hcl
    unfold Cfg.ensureCollectionsExist
    rw [hcl, hlist]
    simp

/-- C8 witness: the theorem applied at a concrete failing listing. -/
theorem c8_witness :
    Env.ensureCollectionsExist wDown [] ["a"] = ⟨[], [], [NetEv.listCollections]⟩ ∧
    Cfg.ensureCollectionsExist wDown ⟨[], true⟩ ["a"] = ([], ⟨[], true⟩, [NetEv.listCollections]) :=
  ⟨(c8_listing_failure wDown [] ⟨[], true⟩ ["a"] "listing failed" rfl).1,
   (c8_listing_failure wDown [] ⟨[], true⟩ ["a"] "listing failed" rfl).2 rfl⟩

/-- C9: in both multi-collection variants, every result of a successful
response carries a collection annotation that belongs to the confirmed
subset of the request's collection list (and hence to the requested
names); no result carries an unconfirmed or unrequested collection. -/
theorem c9_collection_subset (w : World σ π ε) (cache : List String) (st : Cfg.State)
    (params : SearchParams σ) (settings : Settings) (rs : List (SearchResult σ π)) :
    ((Env.call w cache "search" params settings).result = .ok rs →
      ∀ r ∈ rs, ∃ c, r.collection = some c ∧
        c ∈ (Env.ensureCollectionsExist w cache params.collectionNames).existing ∧
        c ∈ params.collectionNames) ∧
    ((Cfg.call w st "search" params settings).result = .ok rs →
      ∀ r ∈ rs, ∃ c, r.collection = some c ∧
        c ∈ (Env.ensureCollectionsExist w st.cache params.collectionNames).existing ∧
        c ∈ params.collectionNames) := by
  constructor
  · intro h r hr
    rcases env_call_ok_inv w cache params settings rs h with ⟨v, _, _, _, hfan⟩
    rcases fanOutResults_ok_mem w v _ rs hfan r hr with ⟨c, hc, hcol⟩
    exact ⟨c, hcol, hc, env_existing_sub_names w cache params.collectionNames hc⟩
  · intro h r hr
    rcases cfg_call_ok_inv w st params settings rs h with ⟨_, v, _, _, hfan⟩
    rcases fanOutResults_ok_mem w v _ rs hfan r hr with ⟨c, hc, hcol⟩
    exact ⟨c, hcol, hc, env_existing_sub_names w st.cache params.collectionNames hc⟩

set_option maxRecDepth 8000 in
/-- C9 witness: the theorem applied at a concrete successful request. -/
theorem c9_witness :
    ∃ c, (SearchResult.mk "id1" 7 0 (some "a") : SearchResult Nat Nat).collection = some c ∧
      c ∈ (Env.ensureCollectionsExist wOk [] params1.collectionNames).existing ∧
      c ∈ params1.collectionNames :=
  (c9_collection_subset wOk [] ⟨[], false⟩ params1 settingsFull
      [⟨"id1", 7, 0, some "a"⟩]).1 rfl ⟨"id1", 7, 0, some "a"⟩ (List.mem_singleton.mpr rfl)

/-- C10: the collections cache is monotonically non-decreasing across
initialization, registry validation and the search operation, in all three
variants: every mutation only adds names, none removes any. -/
theorem c10_cache_monotone (w : World σ π ε) (cache : List String) (st : Cfg.State)
    (command : String) (params : SearchParams σ) (sparams : Single.SearchParams σ)
    (settings : Settings) (ns : List String) (name : String) :
    cache ⊆ (Env.initializeCollections w cache).1 ∧
    cache ⊆ (Env.ensureCollectionsExist w cache ns).cache ∧
    cache ⊆ (Env.call w cache command params settings).cache ∧
    st.cache ⊆ (Cfg.initializeCollections w st).1.cache ∧
    st.cache ⊆ (Cfg.ensureCollectionsExist w st ns).2.1.cache ∧
    st.cache ⊆ (Cfg.call w st command params settings).state.cache ∧
    cache ⊆ (Single.ensureCollectionExists w cache name).2.1 ∧
    cache ⊆ (Single.call w cache command sparams settings).cache :=
  ⟨env_init_cache_sub w cache, env_ensure_cache_sub w cache ns,
   env_call_cache_sub w cache command params settings,
   cfg_init_cache_sub w st, cfg_ensure_cache_sub w st ns,
   cfg_call_cache_sub w st command params settings,
   single_ensure_cache_sub w cache name,
   single_call_cache_sub w cache command sparams settings⟩

/-- C10 witness: a concrete cached name survives a validation call whose
listing rejects. -/
theorem c10_witness :
    "a" ∈ (Env.ensureCollectionsExist wDown ["a"] ["b"]).cache :=
  (c10_cache_monotone wDown ["a"] ⟨[], false⟩ "search" params1 sparams1 settingsNone
      ["b"] "b").2.1 (List.mem_singleton.mpr rfl)

end EHCode
